import Mathlib

/-!
Shallow embedding of the expense-management backend (Node/Express + SQL
handlers) and proofs about its approval engine, chain builder, currency
converter and admin configuration.

Conventions of the embedding:
* SQL tables are Lean lists of records; `UPDATE ... WHERE` is a `List.map`
  that rewrites the matching rows; `SELECT ... ORDER BY` is
  `List.insertionSort` over a filtered list.
* JavaScript numbers that carry money or rates are modelled as `Rat`
  (the floating-point representation is idealized); timestamps are `Nat`
  milliseconds.
* JavaScript truthiness on the values the code actually tests is made
  explicit (`jsNumOr` for `x || d` on numbers, emptiness tests on strings,
  `Option` for absent object keys).
* A transaction that rolls back returns the database unchanged.
-/

namespace ExpenseMgmt

/-- Row status shared by expenses and approval slots. -/
inductive Status where
  | pending
  | approved
  | rejected
deriving DecidableEq, Repr

/-- Row of the companies table (only the fields the handlers read). -/
structure Company where
  id : Nat
  currency : String
deriving DecidableEq, Repr

/-- Row of the users table (fields read by the handlers). -/
structure User where
  id : Nat
  companyId : Nat
  managerId : Option Nat
  role : String
  isActive : Bool
deriving DecidableEq, Repr

/-- Row of the expenses table. -/
structure Expense where
  id : Nat
  userId : Nat
  companyId : Nat
  amount : Rat
  originalAmount : Rat
  originalCurrency : String
  category : String
  description : Option String
  date : Nat
  status : Status
  receiptUrl : Option String
  updatedAt : Nat
deriving DecidableEq, Repr

/-- Row of the approvals table (one approval slot of a chain). -/
structure Slot where
  id : Nat
  expenseId : Nat
  approverId : Nat
  sequence : Nat
  status : Status
  comments : Option String
  decidedAt : Option Nat
deriving DecidableEq, Repr

/-- Row of the approvers table (company approver roster). -/
structure ApproverRow where
  id : Nat
  companyId : Nat
  userId : Nat
  roleName : String
  sequence : Nat
  isActive : Bool
deriving DecidableEq, Repr

/-- Rule types accepted by setApprovalRule. -/
inductive RuleType where
  | percentage
  | specific_approver
  | hybrid
  | amount_threshold
  | category_based
  | role_based
deriving DecidableEq, Repr

/-- The rule_config JSON object: every key the code ever reads, each
optional because a JSON object may lack it (absent key = `none`). -/
structure RuleConfig where
  percentage : Option Rat := none
  total_approvers : Option Nat := none
  approver_id : Option Nat := none
  special_approver_id : Option Nat := none
  required_percentage : Option Rat := none
deriving DecidableEq, Repr

/-- Row of the approval_rules table. -/
structure Rule where
  id : Nat
  companyId : Nat
  ruleType : RuleType
  config : RuleConfig
  isActive : Bool
deriving DecidableEq, Repr

/-- The relational store the handlers operate on. -/
structure DB where
  companies : List Company
  users : List User
  approvers : List ApproverRow
  expenses : List Expense
  approvals : List Slot
  rules : List Rule
deriving DecidableEq, Repr

/-- JavaScript `x || d` for a possibly-absent number: absent and 0 are
falsy and give the default. -/
def jsNumOr (o : Option Rat) (d : Rat) : Rat :=
  match o with
  | none => d
  | some v => if v = 0 then d else v

/-- JavaScript `comments || null`: an absent or empty string becomes null. -/
def jsStrOrNull (o : Option String) : Option String :=
  match o with
  | none => none
  | some s => if s = "" then none else some s

/-- toUpperCase, written on the character list so concrete runs reduce
inside the kernel. -/
def jsToUpper (s : String) : String := ⟨s.data.map Char.toUpper⟩

/-! ## Currency converter (src/currencyConverter.js) -/

/-- One entry of the process-local rate cache. -/
structure CacheEntry where
  rate : Rat
  timestamp : Nat
deriving DecidableEq, Repr

/-- The rate cache, a map keyed by the string FROM_TO. -/
abbrev Cache := List (String × CacheEntry)

/-- Map.set: overwrite the binding for a key. -/
def cacheSet (c : Cache) (k : String) (v : CacheEntry) : Cache :=
  (k, v) :: c.filter (fun p => ¬ p.1 = k)

/-- CACHE_DURATION = 60 * 60 * 1000 milliseconds. -/
def cacheDuration : Nat := 3600000

/-- How a call to the external exchange-rate oracle can fail. -/
inductive OracleFailKind where
  | http404
  | timedOut
  | httpOther
  | network
deriving DecidableEq, Repr

/-- Outcome of the oracle HTTP call: the rates object, or a failure. -/
inductive OracleResult where
  | ok (rates : List (String × Rat))
  | fail (k : OracleFailKind)
deriving DecidableEq, Repr

/-- Errors convertCurrency can raise (internally or to its caller). -/
inductive ConvError where
  | invalidAmount
  | codesRequired
  | rateNotFound (toCode : String)
  | oracleFail (k : OracleFailKind)
  | notSupported (from_ : String)
  | serviceTimeout
  | httpFailed
  | unavailable
deriving DecidableEq, Repr

/-- Decidable equality for Except results, used to evaluate concrete runs. -/
instance {ε α : Type} [DecidableEq ε] [DecidableEq α] : DecidableEq (Except ε α) :=
  fun a b =>
    match a, b with
    | .ok x, .ok y =>
      if h : x = y then .isTrue (by rw [h]) else .isFalse (by intro hh; cases hh; exact h rfl)
    | .error x, .error y =>
      if h : x = y then .isTrue (by rw [h]) else .isFalse (by intro hh; cases hh; exact h rfl)
    | .ok _, .error _ => .isFalse (by intro hh; cases hh)
    | .error _, .ok _ => .isFalse (by intro hh; cases hh)

/-- Exact rational multiplication written through mkRat so that concrete
runs reduce inside the kernel; rmul_eq_mul identifies it with the field
multiplication of ℚ. -/
def rmul (a b : Rat) : Rat := mkRat (a.num * b.num) (a.den * b.den)

/-- Exact rational division written through mkRat; rdiv_eq_div
identifies it with the field division of ℚ (division by zero gives 0). -/
def rdiv (a b : Rat) : Rat := mkRat (a.num * b.den * b.num.sign) (a.den * b.num.natAbs)

/-- The rmul operation is multiplication on ℚ. -/
theorem rmul_eq_mul (a b : Rat) : rmul a b = a * b := by
  conv_rhs => rw [← Rat.num_div_den a, ← Rat.num_div_den b, div_mul_div_comm]
  rw [rmul, Rat.mkRat_eq_div]
  push_cast
  ring

/-- The rdiv operation is division on ℚ. -/
theorem rdiv_eq_div (a b : Rat) : rdiv a b = a / b := by
  rcases Int.lt_trichotomy b.num 0 with hb | hb | hb
  · have hbq : (b.num : ℚ) ≠ 0 := by exact_mod_cast Int.ne_of_lt hb
    have habs : ((b.num.natAbs : Int) : ℚ) = -(b.num : ℚ) := by
      rw [Int.ofNat_natAbs_of_nonpos (le_of_lt hb)]; push_cast; ring
    conv_rhs => rw [← Rat.num_div_den a, ← Rat.num_div_den b]
    rw [rdiv, Rat.mkRat_eq_div, Int.sign_eq_neg_one_of_neg hb]
    have hda : ((a.den : ℚ)) ≠ 0 := by exact_mod_cast a.den_nz
    have hdb : ((b.den : ℚ)) ≠ 0 := by exact_mod_cast b.den_nz
    push_cast [Int.cast_natAbs]
    rw [abs_of_neg (show (b.num : ℚ) < 0 by exact_mod_cast hb)]
    field_simp
  · have hb0 : b = 0 := by
      have := Rat.num_eq_zero.mp hb
      exact this
    subst hb0
    simp [rdiv, div_zero]
  · have hbq : (b.num : ℚ) ≠ 0 := by exact_mod_cast (Int.ne_of_gt hb)
    conv_rhs => rw [← Rat.num_div_den a, ← Rat.num_div_den b]
    rw [rdiv, Rat.mkRat_eq_div, Int.sign_eq_one_of_pos hb]
    have hda : ((a.den : ℚ)) ≠ 0 := by exact_mod_cast a.den_nz
    have hdb : ((b.den : ℚ)) ≠ 0 := by exact_mod_cast b.den_nz
    push_cast [Int.cast_natAbs]
    rw [abs_of_pos (show (0:ℚ) < (b.num : ℚ) by exact_mod_cast hb)]
    field_simp

/-- toFixed(2) idealized on exact rationals: round to 2 decimal places
with ties away from zero, computed on the numerator and denominator so
that concrete runs reduce inside the kernel: for x = n/d the rounded
value is sign(n) * ((2*|100n| + d) / (2d)) hundredths, where the inner
division is Nat floor division. -/
def round2 (x : Rat) : Rat :=
  let t : Int := x.num * 100
  mkRat (Int.sign t * (((2 * t.natAbs + x.den) / (2 * x.den) : Nat) : Int)) 100

/-- Result of the try-block of convertCurrency, together with the values
the local currency-code variables hold when it exits (the catch-block
reads them to build its cache key). -/
structure ConvAttempt where
  result : Except ConvError Rat
  cache : Cache
  oracleCalled : Bool
  curFrom : String
  curTo : String
deriving DecidableEq, Repr

/-- Try-block of convertCurrency: equal-code short-circuit, input
validation, uppercasing, fresh-cache lookup, oracle call, rate check,
cache store. -/
def tryConvert (amount : Rat) (fromC toC : String) (cache : Cache)
    (now : Nat) (oracle : OracleResult) : ConvAttempt :=
  if fromC = toC then
    ⟨.ok (round2 amount), cache, false, fromC, toC⟩
  else if amount ≤ 0 then
    ⟨.error .invalidAmount, cache, false, fromC, toC⟩
  else if fromC = "" ∨ toC = "" then
    ⟨.error .codesRequired, cache, false, fromC, toC⟩
  else
    let fromU := jsToUpper fromC
    let toU := jsToUpper toC
    let key := fromU ++ "_" ++ toU
    let fresh : Option Rat :=
      match cache.lookup key with
      | some e => if now - e.timestamp < cacheDuration then some e.rate else none
      | none => none
    match fresh with
    | some r => ⟨.ok (round2 (rmul amount r)), cache, false, fromU, toU⟩
    | none =>
      match oracle with
      | .ok rates =>
        match rates.lookup toU with
        | some r =>
          ⟨.ok (round2 (rmul amount r)), cacheSet cache key ⟨r, now⟩, true, fromU, toU⟩
        | none => ⟨.error (.rateNotFound toU), cache, true, fromU, toU⟩
      | .fail k => ⟨.error (.oracleFail k), cache, true, fromU, toU⟩

/-- The catch-block error mapping of convertCurrency: only HTTP-level
failures keep their identity; every other caught error surfaces as the
generic unavailable error. -/
def catchMap (e : ConvError) (curFrom : String) : ConvError :=
  match e with
  | .oracleFail .http404 => .notSupported curFrom
  | .oracleFail .timedOut => .serviceTimeout
  | .oracleFail .httpOther => .httpFailed
  | _ => .unavailable

/-- What convertCurrency hands back to its caller. -/
structure ConvOutcome where
  result : Except ConvError Rat
  cache : Cache
  oracleCalled : Bool
deriving DecidableEq, Repr

/-- convertCurrency: the try-block, and on any raised error the
catch-block, which falls back to a cached rate (even an expired one)
for the current pair before rethrowing a mapped error. -/
def convertCurrency (amount : Rat) (fromC toC : String) (cache : Cache)
    (now : Nat) (oracle : OracleResult) : ConvOutcome :=
  let t := tryConvert amount fromC toC cache now oracle
  match t.result with
  | .ok v => ⟨.ok v, t.cache, t.oracleCalled⟩
  | .error e =>
    match t.cache.lookup (t.curFrom ++ "_" ++ t.curTo) with
    | some ce => ⟨.ok (round2 (rmul amount ce.rate)), t.cache, t.oracleCalled⟩
    | none => ⟨.error (catchMap e t.curFrom), t.cache, t.oracleCalled⟩

/-! ## Approval state machine (approveExpense / rejectExpense) -/

/-- Error outcomes of the two decide handlers, one constructor per
distinct error response the code can send. -/
inductive DecideError where
  | notFound
  | notAssignedApprover
  | slotAlreadyDecided (st : Status)
  | expenseTerminated (st : Status)
  | outOfOrder (blockingSequence : Nat)
  | commentRequired
deriving DecidableEq, Repr

/-- Success payload of approveExpense: the expense status it reports,
the fully_approved flag, and the id of the next pending slot if any. -/
structure ApproveOk where
  expenseStatus : Status
  fullyApproved : Bool
  nextApproverSlot : Option Nat
deriving DecidableEq, Repr

/-- Ordering by slot sequence, the ORDER BY used on approval rows. -/
def slotSeqLe (a b : Slot) : Prop := a.sequence ≤ b.sequence

instance : DecidableRel slotSeqLe := fun a b => Nat.decLe a.sequence b.sequence

instance : IsTotal Slot slotSeqLe := ⟨fun a b => Nat.le_total a.sequence b.sequence⟩

instance : IsTrans Slot slotSeqLe := ⟨fun _ _ _ => Nat.le_trans⟩

/-- Query for the approvals before a slot that are not yet approved,
ordered by sequence ascending (the sequential-gating check). -/
def previousUnapproved (db : DB) (sl : Slot) : List Slot :=
  (List.insertionSort slotSeqLe
    (db.approvals.filter (fun s => s.expenseId = sl.expenseId ∧ s.sequence < sl.sequence))).filter
    (fun s => ¬ s.status = .approved)

/-- Effect phase of approveExpense, entered once every precondition
holds: approve the slot, decide completion from the remaining slots,
run the active rules (only the percentage branch exists in the code and
it reads required_percentage from the config), and update the expense. -/
def approveApply (db : DB) (sl : Slot) (e : Expense) (comments : Option String)
    (now : Nat) : Except DecideError ApproveOk × DB :=
  let aps1 := db.approvals.map (fun s =>
    if s.id = sl.id then
      { s with status := .approved, comments := jsStrOrNull comments, decidedAt := some now }
    else s)
  let remaining := List.insertionSort slotSeqLe
    (aps1.filter (fun s => s.expenseId = sl.expenseId ∧ sl.sequence < s.sequence))
  let fully1 : Bool :=
    if remaining.isEmpty then true
    else (aps1.filter (fun s => s.expenseId = sl.expenseId)).all (fun s => s.status = .approved)
  let stat := aps1.filter (fun s => s.expenseId = sl.expenseId)
  let total : Rat := (stat.length : Nat)
  let approvedCount : Rat := ((stat.filter (fun s => s.status = .approved)).length : Nat)
  let approvedPercentage := rmul (rdiv approvedCount total) 100
  let activeRules := db.rules.filter (fun r => r.companyId = e.companyId ∧ r.isActive)
  let fully2 := activeRules.foldl
    (fun acc r =>
      if r.ruleType = .percentage then
        (if approvedPercentage ≥ jsNumOr r.config.required_percentage 100 then true else acc)
      else acc)
    fully1
  let exps :=
    if fully2 then
      db.expenses.map (fun x =>
        if x.id = sl.expenseId then { x with status := .approved, updatedAt := now } else x)
    else db.expenses
  let nextSlot :=
    if fully2 = false ∧ remaining.isEmpty = false then (remaining.head?).map (fun s => s.id)
    else none
  let reportedStatus := if fully2 then Status.approved else Status.pending
  (.ok ⟨reportedStatus, fully2, nextSlot⟩, { db with approvals := aps1, expenses := exps })

/-- approveExpense handler: lookup, precondition checks in source order,
then the effect phase; every failed check rolls back (db unchanged). -/
def approveExpense (db : DB) (slotId actorId : Nat) (comments : Option String)
    (now : Nat) : Except DecideError ApproveOk × DB :=
  match db.approvals.find? (fun a => a.id = slotId) with
  | none => (.error .notFound, db)
  | some sl =>
    match db.expenses.find? (fun e => e.id = sl.expenseId) with
    | none => (.error .notFound, db)
    | some e =>
      if ¬ sl.approverId = actorId then (.error .notAssignedApprover, db)
      else if ¬ sl.status = .pending then (.error (.slotAlreadyDecided sl.status), db)
      else if ¬ e.status = .pending then (.error (.expenseTerminated e.status), db)
      else
        match (previousUnapproved db sl).head? with
        | some b => (.error (.outOfOrder b.sequence), db)
        | none => approveApply db sl e comments now

/-- The cascade comment written on the other pending slots of a rejected
expense. -/
def cascadeComment : String := "Rejected due to prior rejection in approval chain"

/-- JavaScript test for a missing rejection comment: absent, empty or
whitespace-only (trim().length === 0 holds exactly when every character
is whitespace). -/
def jsMissingComment (c : Option String) : Bool :=
  match c with
  | none => true
  | some s => s.data.all Char.isWhitespace

/-- First UPDATE of rejectExpense: the decided slot becomes rejected and
stores the actor comment and the decision timestamp. -/
def rejectSlotUpd (slotId : Nat) (comments : Option String) (now : Nat) (s : Slot) : Slot :=
  if s.id = slotId then
    { s with status := .rejected, comments := comments, decidedAt := some now }
  else s

/-- Expense UPDATE of rejectExpense: the expense becomes rejected. -/
def rejectExpenseUpd (eid : Nat) (now : Nat) (x : Expense) : Expense :=
  if x.id = eid then { x with status := .rejected, updatedAt := now } else x

/-- Cascade UPDATE of rejectExpense: every other still-pending slot of
the expense becomes rejected with the standard cascade comment. -/
def cascadeUpd (eid slotId : Nat) (now : Nat) (s : Slot) : Slot :=
  if s.expenseId = eid ∧ s.status = .pending ∧ ¬ s.id = slotId then
    { s with status := .rejected, comments := some cascadeComment, decidedAt := some now }
  else s

/-- rejectExpense handler: comment check first, then lookup and
precondition checks in source order, then reject the slot, reject the
expense, and cascade-reject every other still-pending slot. -/
def rejectExpense (db : DB) (slotId actorId : Nat) (comments : Option String)
    (now : Nat) : Except DecideError Status × DB :=
  if jsMissingComment comments then (.error .commentRequired, db)
  else
    match db.approvals.find? (fun a => a.id = slotId) with
    | none => (.error .notFound, db)
    | some sl =>
      match db.expenses.find? (fun e => e.id = sl.expenseId) with
      | none => (.error .notFound, db)
      | some e =>
        if ¬ sl.approverId = actorId then (.error .notAssignedApprover, db)
        else if ¬ sl.status = .pending then (.error (.slotAlreadyDecided sl.status), db)
        else if ¬ e.status = .pending then (.error (.expenseTerminated e.status), db)
        else
          let aps1 := db.approvals.map (rejectSlotUpd slotId comments now)
          let exps := db.expenses.map (rejectExpenseUpd sl.expenseId now)
          let aps2 := aps1.map (cascadeUpd sl.expenseId slotId now)
          (.ok .rejected, { db with approvals := aps2, expenses := exps })

/-! ## Approval chain builder and submitExpense -/

/-- Ordering by approver-row sequence (the ORDER BY of the roster query). -/
def rowSeqLe (a b : ApproverRow) : Prop := a.sequence ≤ b.sequence

instance : DecidableRel rowSeqLe := fun a b => Nat.decLe a.sequence b.sequence

instance : IsTotal ApproverRow rowSeqLe := ⟨fun a b => Nat.le_total a.sequence b.sequence⟩

instance : IsTrans ApproverRow rowSeqLe := ⟨fun _ _ _ => Nat.le_trans⟩

/-- Roster query of submitExpense: active approvers of the company,
ordered by configured sequence ascending. -/
def approverQuery (db : DB) (cid : Nat) : List ApproverRow :=
  List.insertionSort rowSeqLe (db.approvers.filter (fun r => r.companyId = cid ∧ r.isActive))

/-- One iteration of the chain assembly loop of submitExpense: skip the
row when it is the direct manager, otherwise append a slot whose
sequence is the running counter (which always equals the chain length
plus one, because it advances exactly when a slot is appended). -/
def chainStep (managerId : Option Nat) (acc : List (Nat × Nat)) (r : ApproverRow) :
    List (Nat × Nat) :=
  if some r.userId = managerId then acc else acc ++ [(acc.length + 1, r.userId)]

/-- Chain assembly of submitExpense: the direct manager first when
present, then the roster loop. Entries are (sequence, approverId). -/
def buildChain (managerId : Option Nat) (rows : List ApproverRow) : List (Nat × Nat) :=
  rows.foldl (chainStep managerId)
    (match managerId with
     | some m => [(1, m)]
     | none => [])

/-- Request body of submitExpense; absent multipart fields are `none`. -/
structure SubmitReq where
  amount : Option Rat
  currency : Option String
  category : Option String
  description : Option String
  date : Option Nat
  receiptFile : Option String
deriving DecidableEq, Repr

/-- Response of submitExpense. The warning field records whether the
JSON response carries any warning key; the handler never writes one, so
it is `none` on every path. -/
structure SubmitResult where
  httpStatus : Nat
  expenseStatus : Option Status
  chain : List Slot
  nextApprover : Option Slot
  warning : Option String
deriving DecidableEq, Repr

/-- Manager query of submitExpense: the manager_id of the submitter row,
undefined when either is absent. -/
def managerOf (db : DB) (userId : Nat) : Option Nat :=
  (db.users.find? (fun u => u.id = userId)).bind (fun u => u.managerId)

/-- The approval-slot rows inserted for the assembled chain entries. -/
def chainSlots (pairs : List (Nat × Nat)) (eid sidBase : Nat) : List Slot :=
  pairs.map (fun p => ⟨sidBase + p.1, eid, p.2, p.1, .pending, none, none⟩)

/-- The expense row inserted by submitExpense (status pending). -/
def mkExpense (eid actorId cid : Nat) (v a : Rat) (cur cat : String)
    (desc : Option String) (d : Nat) (receiptUrl : Option String) (now : Nat) : Expense :=
  ⟨eid, actorId, cid, v, a, cur, cat, desc, d, .pending, receiptUrl, now⟩

/-- The admin auto-approve UPDATE of submitExpense. -/
def approveExpUpd (eid : Nat) (x : Expense) : Expense :=
  if x.id = eid then { x with status := .approved } else x

/-- submitExpense handler: validation, company lookup, currency
conversion (conversion failure rolls the transaction back), expense
insert, chain build and slot inserts, and the admin auto-approve special
case when the chain came out empty. -/
def submitExpense (req : SubmitReq) (actorId companyIdA : Nat) (role : String)
    (db : DB) (cache : Cache) (now : Nat) (oracle : OracleResult)
    (eid sidBase : Nat) : SubmitResult × DB :=
  match req.amount, req.currency, req.category, req.date with
  | some a, some cur, some cat, some d =>
    if cur = "" ∨ cat = "" then (⟨400, none, [], none, none⟩, db)
    else if a ≤ 0 then (⟨400, none, [], none, none⟩, db)
    else
      match db.companies.find? (fun c => c.id = companyIdA) with
      | none => (⟨404, none, [], none, none⟩, db)
      | some comp =>
        let conv := convertCurrency a (jsToUpper cur) (jsToUpper comp.currency) cache now oracle
        match conv.result with
        | .error _ => (⟨400, none, [], none, none⟩, db)
        | .ok v =>
          let receiptUrl := req.receiptFile.map (fun f => "/uploads/" ++ f)
          let exp0 := mkExpense eid actorId companyIdA v a (jsToUpper cur) cat
            req.description d receiptUrl now
          let chainPairs := buildChain (managerOf db actorId) (approverQuery db companyIdA)
          let slots := chainSlots chainPairs eid sidBase
          let expenses1 := db.expenses ++ [exp0]
          let expenses2 :=
            if chainPairs = [] ∧ role = "admin" then expenses1.map (approveExpUpd eid)
            else expenses1
          let reported := if chainPairs = [] ∧ role = "admin" then Status.approved else Status.pending
          (⟨201, some reported, slots, slots.head?, none⟩,
           { db with expenses := expenses2, approvals := db.approvals ++ slots })
  | _, _, _, _ => (⟨400, none, [], none, none⟩, db)

/-! ## Admin configuration (updateApproverSequence / setApprovalRule) -/

/-- Outcome of updateApproverSequence. -/
inductive SeqUpdResult where
  | badRequest
  | notFound
  | unchanged
  | updated (swappedWith : Option Nat)
deriving DecidableEq, Repr

/-- UPDATE approvers SET sequence = ns WHERE id = rid. -/
def seqSetUpd (rid ns : Nat) (r : ApproverRow) : ApproverRow :=
  if r.id = rid then { r with sequence := ns } else r

/-- updateApproverSequence handler: validate the new sequence, look the
approver up in the caller company, return early when the sequence is
unchanged, otherwise give a conflicting active row the vacated sequence
and write the new one, all in one transaction. -/
def updateApproverSequence (tbl : List ApproverRow) (companyId id : Nat)
    (newSequence : Option Nat) : SeqUpdResult × List ApproverRow :=
  match newSequence with
  | none => (.badRequest, tbl)
  | some ns =>
    if ns < 1 then (.badRequest, tbl)
    else
      match tbl.find? (fun r => r.id = id ∧ r.companyId = companyId) with
      | none => (.notFound, tbl)
      | some a =>
        if a.sequence = ns then (.unchanged, tbl)
        else
          let conflicts := tbl.filter
            (fun r => r.companyId = companyId ∧ r.sequence = ns ∧ ¬ r.id = id ∧ r.isActive)
          let tbl1 : List ApproverRow :=
            match conflicts.head? with
            | some c => tbl.map (seqSetUpd c.id a.sequence)
            | none => tbl
          let tbl2 := tbl1.map (seqSetUpd id ns)
          (.updated ((conflicts.head?).map (fun c => c.id)), tbl2)

/-- Validation errors of setApprovalRule. -/
inductive RuleError where
  | invalidConfig
  | approverNotFound
deriving DecidableEq, Repr

/-- JavaScript truthiness of a possibly-absent numeric id. -/
def jsFalsyNat (o : Option Nat) : Bool :=
  match o with
  | none => true
  | some n => n = 0

/-- setApprovalRule handler: per-type config validation (the percentage
validator checks the percentage and total_approvers keys), deactivation
of the previous active rule of the same type, insertion of the new rule. -/
def setApprovalRule (db : DB) (companyId : Nat) (ruleType : RuleType)
    (cfg : RuleConfig) (freshId : Nat) : Except RuleError Rule × DB :=
  let valid : Except RuleError Unit :=
    match ruleType with
    | .percentage =>
      match cfg.percentage, cfg.total_approvers with
      | some p, some t =>
        if p < 1 ∨ 100 < p then .error .invalidConfig
        else if t < 1 then .error .invalidConfig
        else .ok ()
      | _, _ => .error .invalidConfig
    | .specific_approver =>
      if jsFalsyNat cfg.approver_id then .error .invalidConfig
      else
        match cfg.approver_id with
        | some aid =>
          if (db.users.find? (fun u => u.id = aid ∧ u.companyId = companyId)).isSome then .ok ()
          else .error .approverNotFound
        | none => .error .invalidConfig
    | .hybrid =>
      if jsNumOr cfg.percentage 0 = 0 ∨ (cfg.total_approvers).getD 0 = 0 ∨ jsFalsyNat cfg.special_approver_id then
        .error .invalidConfig
      else
        match cfg.special_approver_id with
        | some aid =>
          if (db.users.find? (fun u => u.id = aid ∧ u.companyId = companyId)).isSome then .ok ()
          else .error .approverNotFound
        | none => .error .invalidConfig
    | _ => .ok ()
  match valid with
  | .error e => (.error e, db)
  | .ok _ =>
    let deactivated :=
      match db.rules.find? (fun r => r.companyId = companyId ∧ r.ruleType = ruleType ∧ r.isActive) with
      | some ex => db.rules.map (fun r => if r.id = ex.id then { r with isActive := false } else r)
      | none => db.rules
    let newRule : Rule := ⟨freshId, companyId, ruleType, cfg, true⟩
    (.ok newRule, { db with rules := deactivated ++ [newRule] })

/-! ## Claim C1: percentage rule short-circuit -/

/-- S4 fixture: four-slot chain, slots 1 and 2 already approved. -/
def dbC1 : DB :=
  ⟨[⟨1, "USD"⟩],
   [⟨11, 1, none, "manager", true⟩, ⟨12, 1, none, "manager", true⟩,
    ⟨13, 1, none, "manager", true⟩, ⟨14, 1, none, "admin", true⟩],
   [],
   [⟨1, 5, 1, 100, 100, "USD", "Travel", none, 20251004, .pending, none, 0⟩],
   [⟨101, 1, 11, 1, .approved, none, some 10⟩,
    ⟨102, 1, 12, 2, .approved, none, some 20⟩,
    ⟨103, 1, 13, 3, .pending, none, none⟩,
    ⟨104, 1, 14, 4, .pending, none, none⟩],
   []⟩

/-- The percentage rule config exactly as the admin endpoint accepts it. -/
def cfgC1 : RuleConfig := { percentage := some 75, total_approvers := some 4 }

/-- Database after the admin stores the S4 percentage rule. -/
def dbC1r : DB := (setApprovalRule dbC1 1 .percentage cfgC1 900).2

/-- Claim C1 (code_bug evidence): a percentage rule stored through
setApprovalRule with config percentage=75, total_approvers=4 is accepted,
yet the third distinct approval on the four-slot chain leaves the expense
pending with slot 4 pending, because the engine reads the absent
required_percentage key and so compares 75 percent against the default
100. The claim (and scenario S4) says the expense terminates approved. -/
theorem percentage_rule_reads_wrong_config_key :
    (setApprovalRule dbC1 1 .percentage cfgC1 900).1 =
      .ok ⟨900, 1, .percentage, cfgC1, true⟩ ∧
    dbC1r.rules = [⟨900, 1, .percentage, cfgC1, true⟩] ∧
    (approveExpense dbC1r 103 13 none 50).1 = .ok ⟨.pending, false, some 104⟩ ∧
    ((approveExpense dbC1r 103 13 none 50).2.expenses.map (fun e => e.status)) = [.pending] ∧
    ((approveExpense dbC1r 103 13 none 50).2.approvals.map (fun s => s.status)) =
      [.approved, .approved, .approved, .pending] := by
  refine ⟨rfl, rfl, ?_, ?_, ?_⟩ <;> decide

/-! ## Claim C2: specific_approver and hybrid rules -/

/-- Fixture for the specific_approver scenario: two-slot chain, an
active specific_approver rule naming the approver of slot 1. -/
def dbC2a : DB :=
  ⟨[⟨1, "USD"⟩],
   [⟨201, 1, none, "manager", true⟩, ⟨202, 1, none, "admin", true⟩],
   [],
   [⟨2, 6, 1, 40, 40, "USD", "Meals", none, 20251004, .pending, none, 0⟩],
   [⟨21, 2, 201, 1, .pending, none, none⟩,
    ⟨22, 2, 202, 2, .pending, none, none⟩],
   [⟨901, 1, .specific_approver, { approver_id := some 201 }, true⟩]⟩

/-- Fixture for the hybrid scenario: three-slot chain, slot 1 approved
by the special approver, an active hybrid rule with percentage 50. -/
def dbC2b : DB :=
  ⟨[⟨1, "USD"⟩],
   [⟨301, 1, none, "manager", true⟩, ⟨302, 1, none, "manager", true⟩,
    ⟨303, 1, none, "admin", true⟩],
   [],
   [⟨3, 7, 1, 80, 80, "USD", "Travel", none, 20251004, .pending, none, 0⟩],
   [⟨31, 3, 301, 1, .approved, none, some 10⟩,
    ⟨32, 3, 302, 2, .pending, none, none⟩,
    ⟨33, 3, 303, 3, .pending, none, none⟩],
   [⟨902, 1, .hybrid,
     { percentage := some 50, total_approvers := some 3, special_approver_id := some 301 },
     true⟩]⟩

/-- Claim C2 (code_bug evidence): after an approval, an active
specific_approver rule whose named approver has approved does not
terminate the expense, and an active hybrid rule whose percentage
threshold is met and whose special approver has approved does not
terminate it either — the evaluator loop has a branch only for
percentage rules, so both expenses stay pending. -/
theorem specific_and_hybrid_rules_never_evaluated :
    (approveExpense dbC2a 21 201 none 10).1 = .ok ⟨.pending, false, some 22⟩ ∧
    ((approveExpense dbC2a 21 201 none 10).2.expenses.map (fun e => e.status)) = [.pending] ∧
    (approveExpense dbC2b 32 302 none 20).1 = .ok ⟨.pending, false, some 33⟩ ∧
    ((approveExpense dbC2b 32 302 none 20).2.expenses.map (fun e => e.status)) = [.pending] := by
  refine ⟨?_, ?_, ?_, ?_⟩ <;> decide

/-! ## Claim C10: equal currency codes bypass validation -/

/-- Claim C10: when the raw source and target codes are equal the
converter returns the rounded amount with the cache untouched and the
oracle not called, for every amount including nonpositive ones; and the
invalid-amount error can only be raised when the codes differ. -/
theorem equal_codes_skip_validation (amount : Rat) (fromC toC : String)
    (cache : Cache) (now : Nat) (oracle : OracleResult) :
    (fromC = toC →
      convertCurrency amount fromC toC cache now oracle = ⟨.ok (round2 amount), cache, false⟩) ∧
    ((tryConvert amount fromC toC cache now oracle).result = .error .invalidAmount →
      ¬ fromC = toC) := by
  constructor
  · intro h
    simp [convertCurrency, tryConvert, h]
  · intro hres heq
    rw [tryConvert, if_pos heq] at hres
    cases hres

/-- Witness for C10 at a concrete nonpositive amount with equal codes. -/
theorem equal_codes_skip_validation_witness :
    ((-5 : Rat) ≤ 0) ∧
    convertCurrency (-5) "USD" "USD" [] 0 (.fail .timedOut) = ⟨.ok (-5), [], false⟩ := by
  refine ⟨by norm_num, ?_⟩
  have h := (equal_codes_skip_validation (-5) "USD" "USD" [] 0 (.fail .timedOut)).1 rfl
  rw [h]
  decide

/-! ## Claim C5: already-decided slot and terminated expense -/

/-- Claim C5: for a decide attempt by the assigned approver, a slot that
is no longer pending fails with the already-decided error and a pending
slot on a terminated expense fails with the expense-terminated error, on
both the approve and the reject handler, and the database is returned
unchanged in every such case. -/
theorem decided_slot_and_terminated_expense_rejected (db : DB) (slotId actorId : Nat)
    (comments : Option String) (c : String) (now : Nat) (sl : Slot) (e : Expense)
    (hfind : db.approvals.find? (fun a => a.id = slotId) = some sl)
    (hexp : db.expenses.find? (fun x => x.id = sl.expenseId) = some e)
    (hassign : sl.approverId = actorId)
    (hc : jsMissingComment (some c) = false) :
    ((¬ sl.status = .pending) →
      approveExpense db slotId actorId comments now = (.error (.slotAlreadyDecided sl.status), db) ∧
      rejectExpense db slotId actorId (some c) now = (.error (.slotAlreadyDecided sl.status), db)) ∧
    (sl.status = .pending → (¬ e.status = .pending) →
      approveExpense db slotId actorId comments now = (.error (.expenseTerminated e.status), db) ∧
      rejectExpense db slotId actorId (some c) now = (.error (.expenseTerminated e.status), db)) := by
  constructor
  · intro hs
    constructor
    · simp [approveExpense, hfind, hexp, hassign, hs]
    · simp [rejectExpense, hc, hfind, hexp, hassign, hs]
  · intro hs he
    constructor
    · simp [approveExpense, hfind, hexp, hassign, hs, he]
    · simp [rejectExpense, hc, hfind, hexp, hassign, hs, he]

/-- Fixture for the C5 witness: slot 1 already approved, slot 2 pending,
expense pending. -/
def dbC5 : DB :=
  ⟨[⟨1, "USD"⟩],
   [⟨11, 1, none, "manager", true⟩, ⟨12, 1, none, "admin", true⟩],
   [],
   [⟨1, 5, 1, 60, 60, "USD", "Travel", none, 20251004, .pending, none, 0⟩],
   [⟨41, 1, 11, 1, .approved, some "ok", some 10⟩,
    ⟨42, 1, 12, 2, .pending, none, none⟩],
   []⟩

/-- Witness for C5: re-posting approve on the already-approved slot 41
(and rejecting it) fails and leaves the database unchanged. -/
theorem decided_slot_rejected_witness :
    approveExpense dbC5 41 11 none 99 = (.error (.slotAlreadyDecided .approved), dbC5) ∧
    rejectExpense dbC5 41 11 (some "late change") 99 =
      (.error (.slotAlreadyDecided .approved), dbC5) :=
  (decided_slot_and_terminated_expense_rejected dbC5 41 11 none "late change" 99
    ⟨41, 1, 11, 1, .approved, some "ok", some 10⟩
    ⟨1, 5, 1, 60, 60, "USD", "Travel", none, 20251004, .pending, none, 0⟩
    (by decide) (by decide) (by decide) (by decide)).1 (by decide)

/-! ## Claim C4: sequential gating -/

/-- Membership in the previousUnapproved query is exactly being a
blocking row: same expense, lower sequence, not approved. -/
theorem mem_previousUnapproved (db : DB) (sl : Slot) (s : Slot) :
    s ∈ previousUnapproved db sl ↔
      s ∈ db.approvals ∧ s.expenseId = sl.expenseId ∧ s.sequence < sl.sequence ∧
        ¬ s.status = .approved := by
  unfold previousUnapproved
  rw [List.mem_filter, (List.perm_insertionSort slotSeqLe _).mem_iff, List.mem_filter]
  simp [and_assoc]

/-- Claim C4: when the assigned approver approves a pending slot of a
pending expense while some lower-sequence slot of the same expense is
not approved, the handler fails with the out-of-order error naming the
lowest blocking sequence and returns the database unchanged. -/
theorem out_of_order_approval_blocks (db : DB) (slotId actorId : Nat)
    (comments : Option String) (now : Nat) (sl : Slot) (e : Expense)
    (hfind : db.approvals.find? (fun a => a.id = slotId) = some sl)
    (hexp : db.expenses.find? (fun x => x.id = sl.expenseId) = some e)
    (hassign : sl.approverId = actorId)
    (hslp : sl.status = .pending) (hep : e.status = .pending)
    (hblock : ∃ s ∈ db.approvals, s.expenseId = sl.expenseId ∧ s.sequence < sl.sequence ∧
      ¬ s.status = .approved) :
    ∃ b : Slot,
      approveExpense db slotId actorId comments now = (.error (.outOfOrder b.sequence), db) ∧
      b ∈ db.approvals ∧ b.expenseId = sl.expenseId ∧ b.sequence < sl.sequence ∧
      ¬ b.status = .approved ∧
      (∀ s ∈ db.approvals, s.expenseId = sl.expenseId → s.sequence < sl.sequence →
        ¬ s.status = .approved → b.sequence ≤ s.sequence) := by
  obtain ⟨s0, hs0mem, hs0a, hs0b, hs0c⟩ := hblock
  cases hLl : previousUnapproved db sl with
  | nil =>
    exfalso
    have hmem := (mem_previousUnapproved db sl s0).mpr ⟨hs0mem, hs0a, hs0b, hs0c⟩
    rw [hLl] at hmem
    exact List.not_mem_nil s0 hmem
  | cons x xs =>
    have hL : (previousUnapproved db sl).head? = some x := by rw [hLl]; rfl
    have hxmem : x ∈ previousUnapproved db sl := by
      rw [hLl]; exact List.mem_cons_self x xs
    obtain ⟨hx1, hx2, hx3, hx4⟩ := (mem_previousUnapproved db sl x).mp hxmem
    refine ⟨x, ?_, hx1, hx2, hx3, hx4, ?_⟩
    · simp [approveExpense, hfind, hexp, hassign, hslp, hep, hL]
    · intro s hs1 hs2 hs3 hs4
      have hsL : s ∈ previousUnapproved db sl :=
        (mem_previousUnapproved db sl s).mpr ⟨hs1, hs2, hs3, hs4⟩
      have hsorted : List.Sorted slotSeqLe (previousUnapproved db sl) :=
        (List.sorted_insertionSort slotSeqLe _).filter _
      rw [hLl] at hsorted hsL
      rcases List.mem_cons.mp hsL with h | h
      · rw [h]
      · exact (List.sorted_cons.mp hsorted).1 s h

/-- S3 fixture: three-slot chain, every slot pending. -/
def dbC4 : DB :=
  ⟨[⟨1, "USD"⟩],
   [⟨401, 1, none, "manager", true⟩, ⟨402, 1, none, "manager", true⟩,
    ⟨403, 1, none, "admin", true⟩],
   [],
   [⟨1, 5, 1, 70, 70, "USD", "Travel", none, 20251004, .pending, none, 0⟩],
   [⟨51, 1, 401, 1, .pending, none, none⟩,
    ⟨52, 1, 402, 2, .pending, none, none⟩,
    ⟨53, 1, 403, 3, .pending, none, none⟩],
   []⟩

/-- Witness for C4: the CEO approving slot 3 before anyone has decided
fails citing sequence 1 and changes nothing. -/
theorem out_of_order_approval_blocks_witness :
    approveExpense dbC4 53 403 none 9 = (.error (.outOfOrder 1), dbC4) := by
  obtain ⟨b, hb, hbmem, _, hblt, _, hmin⟩ :=
    out_of_order_approval_blocks dbC4 53 403 none 9
      ⟨53, 1, 403, 3, .pending, none, none⟩
      ⟨1, 5, 1, 70, 70, "USD", "Travel", none, 20251004, .pending, none, 0⟩
      (by decide) (by decide) (by decide) (by decide) (by decide)
      ⟨⟨51, 1, 401, 1, .pending, none, none⟩, by decide, by decide, by decide, by decide⟩
  have h1 : b.sequence ≤ 1 :=
    hmin ⟨51, 1, 401, 1, .pending, none, none⟩ (by decide) (by decide) (by decide) (by decide)
  fin_cases hbmem
  · exact hb
  · exact absurd h1 (by decide)
  · exact absurd hblt (by decide)

/-! ## Claim C3: cascade rejection -/

/-- find? commutes with a row-update map that preserves the searched
predicate. -/
theorem find_pred_map {α : Type} (l : List α) (f : α → α) (p : α → Bool)
    (hp : ∀ s, p (f s) = p s) : (l.map f).find? p = (l.find? p).map f := by
  rw [List.find?_map f l]
  have hpf : (p ∘ f) = p := funext (fun s => by simp [Function.comp, hp])
  rw [hpf]

/-- The decided-slot update preserves slot ids. -/
theorem rejectSlotUpd_id (slotId : Nat) (c : Option String) (now : Nat) (s : Slot) :
    (rejectSlotUpd slotId c now s).id = s.id := by
  unfold rejectSlotUpd; split <;> rfl

/-- The cascade update preserves slot ids. -/
theorem cascadeUpd_id (eid slotId now : Nat) (s : Slot) :
    (cascadeUpd eid slotId now s).id = s.id := by
  unfold cascadeUpd; split <;> rfl

/-- The expense-reject update preserves expense ids. -/
theorem rejectExpenseUpd_id (eid now : Nat) (x : Expense) :
    (rejectExpenseUpd eid now x).id = x.id := by
  unfold rejectExpenseUpd; split <;> rfl

/-- Claim C3: a valid reject marks the decided slot rejected with the
actor comment and the decision timestamp, cascade-rejects every other
still-pending slot of the expense with the standard comment, leaves
already-approved slots untouched, and marks the expense rejected. -/
theorem reject_cascades (db : DB) (slotId actorId : Nat) (c : String) (now : Nat)
    (sl : Slot) (e : Expense)
    (hfind : db.approvals.find? (fun a => a.id = slotId) = some sl)
    (hexp : db.expenses.find? (fun x => x.id = sl.expenseId) = some e)
    (hassign : sl.approverId = actorId)
    (hslp : sl.status = .pending) (hep : e.status = .pending)
    (hc : jsMissingComment (some c) = false)
    (hids : (db.approvals.map (fun s => s.id)).Nodup) :
    (rejectExpense db slotId actorId (some c) now).1 = .ok .rejected ∧
    ((rejectExpense db slotId actorId (some c) now).2.approvals.find?
        (fun a => a.id = slotId)) =
      some { sl with status := .rejected, comments := some c, decidedAt := some now } ∧
    (∀ t ∈ db.approvals, t.expenseId = sl.expenseId → ¬ t.id = slotId →
      t.status = .pending →
      { t with status := .rejected, comments := some cascadeComment, decidedAt := some now } ∈
        (rejectExpense db slotId actorId (some c) now).2.approvals) ∧
    (∀ t ∈ db.approvals, t.status = .approved →
      t ∈ (rejectExpense db slotId actorId (some c) now).2.approvals) ∧
    ((rejectExpense db slotId actorId (some c) now).2.expenses.find?
        (fun x => x.id = sl.expenseId)) =
      some { e with status := .rejected, updatedAt := now } := by
  have hslid : sl.id = slotId := by
    have h := List.find?_some hfind
    exact of_decide_eq_true h
  have heid : e.id = sl.expenseId := by
    have h := List.find?_some hexp
    exact of_decide_eq_true h
  have hred : rejectExpense db slotId actorId (some c) now =
      (.ok .rejected,
       { db with
          approvals := (db.approvals.map (rejectSlotUpd slotId (some c) now)).map
            (cascadeUpd sl.expenseId slotId now),
          expenses := db.expenses.map (rejectExpenseUpd sl.expenseId now) }) := by
    simp [rejectExpense, hc, hfind, hexp, hassign, hslp, hep]
  rw [hred]
  refine ⟨rfl, ?_, ?_, ?_, ?_⟩
  · rw [List.map_map,
      find_pred_map db.approvals _ _
        (fun s => by
          simp [Function.comp, cascadeUpd_id, rejectSlotUpd_id]),
      hfind]
    simp [rejectSlotUpd, cascadeUpd, hslid]
  · intro t ht htexp htid htp
    rw [List.map_map]
    have heqt : (cascadeUpd sl.expenseId slotId now ∘ rejectSlotUpd slotId (some c) now) t =
        { t with status := .rejected, comments := some cascadeComment, decidedAt := some now } := by
      simp [Function.comp, rejectSlotUpd, cascadeUpd, htid, htexp, htp]
    rw [← heqt]
    exact List.mem_map_of_mem _ ht
  · intro t ht hts
    have htid : ¬ t.id = slotId := by
      intro hid
      have hsl : sl ∈ db.approvals := List.mem_of_find?_eq_some hfind
      have : t = sl :=
        List.inj_on_of_nodup_map hids ht hsl (by rw [hid, hslid])
      rw [this] at hts
      rw [hslp] at hts
      cases hts
    rw [List.map_map]
    have heqt : (cascadeUpd sl.expenseId slotId now ∘ rejectSlotUpd slotId (some c) now) t = t := by
      simp [Function.comp, rejectSlotUpd, cascadeUpd, htid, hts]
    rw [← heqt]
    exact List.mem_map_of_mem _ ht
  · rw [find_pred_map db.expenses _ _ (fun x => by simp [rejectExpenseUpd_id]), hexp]
    simp [rejectExpenseUpd, heid]

/-- S2 fixture: manager slot approved, finance and CEO slots pending. -/
def dbC3 : DB :=
  ⟨[⟨1, "USD"⟩],
   [⟨601, 1, none, "manager", true⟩, ⟨602, 1, none, "manager", true⟩,
    ⟨603, 1, none, "admin", true⟩],
   [],
   [⟨1, 5, 1, 90, 90, "USD", "Travel", none, 20251004, .pending, none, 0⟩],
   [⟨61, 1, 601, 1, .approved, some "ok", some 10⟩,
    ⟨62, 1, 602, 2, .pending, none, none⟩,
    ⟨63, 1, 603, 3, .pending, none, none⟩],
   []⟩

/-- Witness for C3 on the S2 scenario: finance rejects with a comment;
the CEO slot is cascade-rejected, the manager slot is untouched, and the
expense is rejected. -/
theorem reject_cascades_witness :
    (rejectExpense dbC3 62 602 (some "missing receipt") 30).1 = .ok .rejected ∧
    ((rejectExpense dbC3 62 602 (some "missing receipt") 30).2.approvals.find?
        (fun a => a.id = 62)) =
      some ⟨62, 1, 602, 2, .rejected, some "missing receipt", some 30⟩ ∧
    (⟨63, 1, 603, 3, .rejected, some cascadeComment, some 30⟩ : Slot) ∈
      (rejectExpense dbC3 62 602 (some "missing receipt") 30).2.approvals ∧
    (⟨61, 1, 601, 1, .approved, some "ok", some 10⟩ : Slot) ∈
      (rejectExpense dbC3 62 602 (some "missing receipt") 30).2.approvals ∧
    ((rejectExpense dbC3 62 602 (some "missing receipt") 30).2.expenses.find?
        (fun x => x.id = 1)) =
      some ⟨1, 5, 1, 90, 90, "USD", "Travel", none, 20251004, .rejected, none, 30⟩ := by
  obtain ⟨h1, h2, h3, h4, h5⟩ :=
    reject_cascades dbC3 62 602 "missing receipt" 30
      ⟨62, 1, 602, 2, .pending, none, none⟩
      ⟨1, 5, 1, 90, 90, "USD", "Travel", none, 20251004, .pending, none, 0⟩
      (by decide) (by decide) (by decide) (by decide) (by decide) (by decide) (by decide)
  exact ⟨h1, h2,
    h3 ⟨63, 1, 603, 3, .pending, none, none⟩ (by decide) (by decide) (by decide) (by decide),
    h4 ⟨61, 1, 601, 1, .approved, some "ok", some 10⟩ (by decide) (by decide), h5⟩

/-! ## Claim C6: chain shape -/

/-- The chain loop keeps sequences dense: if the accumulator holds the
sequences 1..|acc| then the loop result does as well. -/
theorem chainStep_foldl_fst (managerId : Option Nat) :
    ∀ (rows : List ApproverRow) (acc : List (Nat × Nat)),
      acc.map Prod.fst = List.range' 1 acc.length →
      (rows.foldl (chainStep managerId) acc).map Prod.fst =
        List.range' 1 (rows.foldl (chainStep managerId) acc).length := by
  intro rows
  induction rows with
  | nil => intro acc h; simpa using h
  | cons r rs ih =>
    intro acc h
    rw [List.foldl_cons]
    apply ih
    unfold chainStep
    split
    · exact h
    · rw [List.map_append, h, List.length_append]
      simp [List.range'_concat, Nat.add_comm]

/-- The chain loop appends exactly the non-manager roster users, in
order. -/
theorem chainStep_foldl_snd (managerId : Option Nat) :
    ∀ (rows : List ApproverRow) (acc : List (Nat × Nat)),
      (rows.foldl (chainStep managerId) acc).map Prod.snd =
        acc.map Prod.snd ++
          (rows.filter (fun r => ¬ some r.userId = managerId)).map (fun r => r.userId) := by
  intro rows
  induction rows with
  | nil => intro acc; simp
  | cons r rs ih =>
    intro acc
    rw [List.foldl_cons, List.filter_cons]
    by_cases h : some r.userId = managerId
    · rw [ih]
      simp [chainStep, h]
    · rw [ih]
      simp [chainStep, h]

/-- Claim C6: the assembled chain places the direct manager (when any)
at sequence 1, then the company's active roster rows in ascending
configured sequence with the manager skipped, and the slot sequences
form the dense set 1..N; the roster query is sorted by configured
sequence and is a permutation of the active rows of the company. -/
theorem chain_dense_manager_first_roster_ordered (db : DB) (cid : Nat)
    (managerId : Option Nat) :
    (buildChain managerId (approverQuery db cid)).map Prod.fst =
      List.range' 1 (buildChain managerId (approverQuery db cid)).length ∧
    (buildChain managerId (approverQuery db cid)).map Prod.snd =
      managerId.toList ++
        ((approverQuery db cid).filter (fun r => ¬ some r.userId = managerId)).map
          (fun r => r.userId) ∧
    List.Sorted rowSeqLe (approverQuery db cid) ∧
    (approverQuery db cid).Perm
      (db.approvers.filter (fun r => r.companyId = cid ∧ r.isActive)) := by
  refine ⟨?_, ?_, ?_, ?_⟩
  · apply chainStep_foldl_fst
    cases managerId <;> simp
  · rw [buildChain.eq_def, chainStep_foldl_snd]
    cases managerId <;> simp
  · exact List.sorted_insertionSort rowSeqLe _
  · exact List.perm_insertionSort rowSeqLe _

/-! ## Claims C7 and C8: submitExpense paths -/

/-- Shared reduction of submitExpense on its success path. -/
theorem submitExpense_success (req : SubmitReq) (actorId cid : Nat) (role : String)
    (db : DB) (cache : Cache) (now : Nat) (oracle : OracleResult) (eid sidBase : Nat)
    (a v : Rat) (cur cat : String) (d : Nat) (comp : Company)
    (ha : req.amount = some a) (hcur : req.currency = some cur)
    (hcat : req.category = some cat) (hd : req.date = some d)
    (hcur0 : ¬ cur = "") (hcat0 : ¬ cat = "") (ha0 : ¬ a ≤ 0)
    (hcomp : db.companies.find? (fun c => c.id = cid) = some comp)
    (hconv : (convertCurrency a (jsToUpper cur) (jsToUpper comp.currency) cache now oracle).result =
      .ok v) :
    submitExpense req actorId cid role db cache now oracle eid sidBase =
      (⟨201,
        some (if buildChain (managerOf db actorId) (approverQuery db cid) = [] ∧ role = "admin"
              then Status.approved else Status.pending),
        chainSlots (buildChain (managerOf db actorId) (approverQuery db cid)) eid sidBase,
        (chainSlots (buildChain (managerOf db actorId) (approverQuery db cid)) eid sidBase).head?,
        none⟩,
       { db with
          expenses :=
            (if buildChain (managerOf db actorId) (approverQuery db cid) = [] ∧ role = "admin"
             then (db.expenses ++
               [mkExpense eid actorId cid v a (jsToUpper cur) cat req.description d
                 (req.receiptFile.map (fun f => "/uploads/" ++ f)) now]).map (approveExpUpd eid)
             else db.expenses ++
               [mkExpense eid actorId cid v a (jsToUpper cur) cat req.description d
                 (req.receiptFile.map (fun f => "/uploads/" ++ f)) now]),
          approvals := db.approvals ++
            chainSlots (buildChain (managerOf db actorId) (approverQuery db cid)) eid sidBase }) := by
  simp [submitExpense, ha, hcur, hcat, hd, hcur0, hcat0, ha0, hcomp, hconv]

/-- Claim C7 (amended): when the assembled chain is empty the expense is
persisted approved for an admin submitter and pending with zero slots
for anyone else; the write succeeds with HTTP 201 either way, and the
response carries no warning field (it only shows the empty chain and a
null next approver). -/
theorem empty_chain_admin_approves_others_dead_end (req : SubmitReq) (actorId cid : Nat)
    (role : String) (db : DB) (cache : Cache) (now : Nat) (oracle : OracleResult)
    (eid sidBase : Nat) (a v : Rat) (cur cat : String) (d : Nat) (comp : Company)
    (ha : req.amount = some a) (hcur : req.currency = some cur)
    (hcat : req.category = some cat) (hd : req.date = some d)
    (hcur0 : ¬ cur = "") (hcat0 : ¬ cat = "") (ha0 : ¬ a ≤ 0)
    (hcomp : db.companies.find? (fun c => c.id = cid) = some comp)
    (hconv : (convertCurrency a (jsToUpper cur) (jsToUpper comp.currency) cache now oracle).result =
      .ok v)
    (hmid : managerOf db actorId = none)
    (hq : approverQuery db cid = [])
    (hfresh : ∀ x ∈ db.expenses, ¬ x.id = eid) :
    ((submitExpense req actorId cid role db cache now oracle eid sidBase).1.httpStatus = 201 ∧
     (submitExpense req actorId cid role db cache now oracle eid sidBase).1.warning = none ∧
     (submitExpense req actorId cid role db cache now oracle eid sidBase).1.chain = [] ∧
     (submitExpense req actorId cid role db cache now oracle eid sidBase).2.approvals =
       db.approvals) ∧
    (role = "admin" →
      (submitExpense req actorId cid role db cache now oracle eid sidBase).2.expenses =
        db.expenses ++
          [{ mkExpense eid actorId cid v a (jsToUpper cur) cat req.description d
              (req.receiptFile.map (fun f => "/uploads/" ++ f)) now with
             status := Status.approved }] ∧
      (submitExpense req actorId cid role db cache now oracle eid sidBase).1.expenseStatus =
        some .approved) ∧
    (¬ role = "admin" →
      (submitExpense req actorId cid role db cache now oracle eid sidBase).2.expenses =
        db.expenses ++
          [mkExpense eid actorId cid v a (jsToUpper cur) cat req.description d
            (req.receiptFile.map (fun f => "/uploads/" ++ f)) now] ∧
      (submitExpense req actorId cid role db cache now oracle eid sidBase).1.expenseStatus =
        some .pending) := by
  rw [submitExpense_success req actorId cid role db cache now oracle eid sidBase a v cur cat d
    comp ha hcur hcat hd hcur0 hcat0 ha0 hcomp hconv]
  have hchain : buildChain (managerOf db actorId) (approverQuery db cid) = [] := by
    rw [hmid, hq]; rfl
  have hmapfresh : db.expenses.map (approveExpUpd eid) = db.expenses :=
    List.map_congr_left (fun x hx => by simp [approveExpUpd, hfresh x hx]) |>.trans
      (List.map_id db.expenses)
  refine ⟨⟨rfl, rfl, ?_, ?_⟩, ?_, ?_⟩
  · simp [hchain, chainSlots]
  · simp [hchain, chainSlots]
  · intro hrole
    constructor
    · simp only [hchain, hrole, and_self, if_pos, if_true, List.map_append, hmapfresh]
      simp [approveExpUpd, mkExpense]
    · simp [hchain, hrole]
  · intro hrole
    constructor
    · simp [hchain, hrole]
    · simp [hchain, hrole]

/-- Fixture for C7: one company, an employee and an admin, no roster. -/
def dbC7 : DB :=
  ⟨[⟨1, "USD"⟩],
   [⟨5, 1, none, "employee", true⟩, ⟨9, 1, none, "admin", true⟩],
   [], [], [], []⟩

/-- Request fixture for C7. -/
def reqC7 : SubmitReq := ⟨some 100, some "USD", some "Travel", none, some 20251004, none⟩

/-- Counterexample to claim C7 as stated: a non-admin submission with an
empty approver list persists a pending expense with zero slots and the
write succeeds, but the response carries no warning field at all
(warning = none), so no configuration error is surfaced. -/
theorem empty_chain_no_warning_field_counterexample :
    submitExpense reqC7 5 1 "employee" dbC7 [] 77 (.fail .network) 1 500 =
      (⟨201, some .pending, [], none, none⟩,
       ⟨[⟨1, "USD"⟩],
        [⟨5, 1, none, "employee", true⟩, ⟨9, 1, none, "admin", true⟩],
        [],
        [⟨1, 5, 1, 100, 100, "USD", "Travel", none, 20251004, .pending, none, 77⟩],
        [], []⟩) := by
  decide

/-- Witness for the amended C7 on the admin branch: the same empty-chain
submission by the admin persists the expense approved immediately. -/
theorem empty_chain_admin_approves_witness :
    (submitExpense reqC7 9 1 "admin" dbC7 [] 77 (.fail .network) 1 500).1.httpStatus = 201 ∧
    (submitExpense reqC7 9 1 "admin" dbC7 [] 77 (.fail .network) 1 500).1.warning = none ∧
    (submitExpense reqC7 9 1 "admin" dbC7 [] 77 (.fail .network) 1 500).1.chain = [] ∧
    (submitExpense reqC7 9 1 "admin" dbC7 [] 77 (.fail .network) 1 500).2.approvals = [] ∧
    (submitExpense reqC7 9 1 "admin" dbC7 [] 77 (.fail .network) 1 500).2.expenses =
      [{ mkExpense 1 9 1 100 100 "USD" "Travel" none 20251004 none 77 with
         status := Status.approved }] ∧
    (submitExpense reqC7 9 1 "admin" dbC7 [] 77 (.fail .network) 1 500).1.expenseStatus =
      some .approved := by
  obtain ⟨⟨h1, h2, h3, h4⟩, hadm, _⟩ :=
    empty_chain_admin_approves_others_dead_end reqC7 9 1 "admin" dbC7 [] 77 (.fail .network)
      1 500 100 100 "USD" "Travel" 20251004 ⟨1, "USD"⟩
      rfl rfl rfl rfl (by decide) (by decide) (by decide) (by decide) (by decide)
      (by decide) (by decide) (by simp [dbC7])
  obtain ⟨h5, h6⟩ := hadm rfl
  exact ⟨h1, h2, h3, by simpa [dbC7] using h4, by simpa [dbC7] using h5, h6⟩

/-- Claim C8: when the oracle call fails, the converter falls back to a
cached rate for the ordered uppercased pair even when the entry is stale,
and with no cache entry it surfaces an error; a submission whose
conversion errors returns HTTP 400 with the database unchanged, so the
expense is not persisted. -/
theorem oracle_failure_stale_fallback_or_rollback
    (amount : Rat) (fromC toC : String) (cache : Cache) (now : Nat) (k : OracleFailKind)
    (req : SubmitReq) (actorId cid : Nat) (role : String) (db : DB) (oracle : OracleResult)
    (eid sidBase : Nat) (a : Rat) (cur cat : String) (d : Nat) (comp : Company)
    (err : ConvError) :
    ((¬ fromC = toC) → 0 < amount → (¬ fromC = "") → (¬ toC = "") →
      (∀ ce, cache.lookup (jsToUpper fromC ++ "_" ++ jsToUpper toC) = some ce →
        ¬ now - ce.timestamp < cacheDuration) →
      ((∀ ce, cache.lookup (jsToUpper fromC ++ "_" ++ jsToUpper toC) = some ce →
          convertCurrency amount fromC toC cache now (.fail k) =
            ⟨.ok (round2 (rmul amount ce.rate)), cache, true⟩) ∧
       (cache.lookup (jsToUpper fromC ++ "_" ++ jsToUpper toC) = none →
          convertCurrency amount fromC toC cache now (.fail k) =
            ⟨.error (catchMap (.oracleFail k) (jsToUpper fromC)), cache, true⟩))) ∧
    (req.amount = some a → req.currency = some cur → req.category = some cat →
      req.date = some d → (¬ cur = "") → (¬ cat = "") → (¬ a ≤ 0) →
      db.companies.find? (fun c => c.id = cid) = some comp →
      (convertCurrency a (jsToUpper cur) (jsToUpper comp.currency) cache now oracle).result =
        .error err →
      submitExpense req actorId cid role db cache now oracle eid sidBase =
        (⟨400, none, [], none, none⟩, db)) := by
  constructor
  · intro h1 h2 h3 h4 hstale
    constructor
    · intro ce hce
      simp [convertCurrency, tryConvert, h1, h3, h4, hce, not_le.mpr h2, hstale ce hce]
    · intro hnone
      simp [convertCurrency, tryConvert, h1, h3, h4, hnone, not_le.mpr h2]
  · intro ha hcur hcat hd hcur0 hcat0 ha0 hcomp hconv
    simp [submitExpense, ha, hcur, hcat, hd, hcur0, hcat0, ha0, hcomp, hconv]

/-- Stale cache fixture for the C8 witness: the EUR to USD rate was
cached at time 0 and the clock is two hours later. -/
def cacheC8 : Cache := [("EUR_USD", ⟨mkRat 11 10, 0⟩)]

/-- Submission fixture for the C8 rollback branch. -/
def dbC8 : DB := ⟨[⟨1, "USD"⟩], [⟨5, 1, none, "employee", true⟩], [], [], [], []⟩

/-- Request fixture for the C8 rollback branch. -/
def reqC8 : SubmitReq := ⟨some 100, some "EUR", some "Travel", none, some 20251004, none⟩

/-- Witness for C8: the stale EUR_USD entry is used after an oracle
timeout (250.50 EUR becomes 275.55), and with an empty cache the same
submission fails with HTTP 400 leaving the database unchanged. -/
theorem oracle_failure_stale_fallback_or_rollback_witness :
    convertCurrency (mkRat 501 2) "EUR" "USD" cacheC8 7200000 (.fail .timedOut) =
      ⟨.ok (mkRat 5511 20), cacheC8, true⟩ ∧
    submitExpense reqC8 5 1 "employee" dbC8 [] 7200000 (.fail .timedOut) 1 500 =
      (⟨400, none, [], none, none⟩, dbC8) := by
  constructor
  · have h :=
      ((oracle_failure_stale_fallback_or_rollback (mkRat 501 2) "EUR" "USD" cacheC8 7200000
        .timedOut reqC8 5 1 "employee" dbC8 (.fail .timedOut) 1 500 100 "EUR" "Travel"
        20251004 ⟨1, "USD"⟩ .serviceTimeout).1
        (by decide) (by decide) (by decide) (by decide)
        (fun ce hce => by
          have hkey : jsToUpper "EUR" ++ "_" ++ jsToUpper "USD" = "EUR_USD" := by decide
          rw [hkey] at hce
          have h1 : List.lookup "EUR_USD" cacheC8 =
              some (⟨mkRat 11 10, 0⟩ : CacheEntry) := by decide
          rw [h1] at hce
          rw [(Option.some.inj hce).symm]
          decide)).1
        ⟨mkRat 11 10, 0⟩ (by decide)
    rw [h]
    decide
  · exact
      (oracle_failure_stale_fallback_or_rollback (mkRat 501 2) "EUR" "USD" [] 7200000
        .timedOut reqC8 5 1 "employee" dbC8 (.fail .timedOut) 1 500 100 "EUR" "Travel"
        20251004 ⟨1, "USD"⟩ .serviceTimeout).2
        rfl rfl rfl rfl (by decide) (by decide) (by decide) (by decide) (by decide)

/-! ## Claim C9: atomic sequence swap -/

/-- Claim C9: when the requested sequence is held by another active row
of the same company, updateApproverSequence swaps the two sequences in
one pass: the occupant takes the vacated sequence, the updated approver
takes the requested one, and every other row is unchanged. -/
theorem sequence_swap_on_collision (tbl : List ApproverRow) (companyId id ns : Nat)
    (a c : ApproverRow)
    (hfind : tbl.find? (fun r => r.id = id ∧ r.companyId = companyId) = some a)
    (hne : ¬ a.sequence = ns) (h1 : 1 ≤ ns)
    (hconf : tbl.filter
      (fun r => r.companyId = companyId ∧ r.sequence = ns ∧ ¬ r.id = id ∧ r.isActive) = [c]) :
    updateApproverSequence tbl companyId id (some ns) =
      (.updated (some c.id),
       tbl.map (fun r =>
         if r.id = c.id then { r with sequence := a.sequence }
         else if r.id = id then { r with sequence := ns } else r)) ∧
    ({ a with sequence := ns } ∈ (updateApproverSequence tbl companyId id (some ns)).2) ∧
    ({ c with sequence := a.sequence } ∈ (updateApproverSequence tbl companyId id (some ns)).2) := by
  have hcmem : c ∈ tbl.filter
      (fun r => r.companyId = companyId ∧ r.sequence = ns ∧ ¬ r.id = id ∧ r.isActive) := by
    rw [hconf]; exact List.mem_cons_self c []
  have hcprops := List.mem_filter.mp hcmem
  have hcid : ¬ c.id = id := (of_decide_eq_true hcprops.2).2.2.1
  have hfp := List.find?_some hfind
  have haid : a.id = id := (of_decide_eq_true hfp).1
  have hamem : a ∈ tbl := List.mem_of_find?_eq_some hfind
  have hidc : ¬ id = c.id := fun hh => hcid hh.symm
  have hmain : updateApproverSequence tbl companyId id (some ns) =
      (.updated (some c.id),
       tbl.map (fun r =>
         if r.id = c.id then { r with sequence := a.sequence }
         else if r.id = id then { r with sequence := ns } else r)) := by
    have hns : ¬ ns < 1 := by omega
    simp only [updateApproverSequence, hfind, hconf, hns, if_false, hne, List.head?,
      Option.map_some, if_neg hns, if_neg hne]
    rw [List.map_map]
    have hfun : (seqSetUpd id ns ∘ seqSetUpd c.id a.sequence) =
        (fun r => if r.id = c.id then { r with sequence := a.sequence }
                  else if r.id = id then { r with sequence := ns } else r) := by
      funext r
      by_cases h : r.id = c.id
      · have hrid : ¬ r.id = id := by rw [h]; exact hcid
        simp [Function.comp, seqSetUpd, h, hrid, hcid]
      · by_cases h2 : r.id = id
        · simp [Function.comp, seqSetUpd, h, h2, hidc]
        · simp [Function.comp, seqSetUpd, h, h2]
    rw [hfun]
    rfl
  refine ⟨hmain, ?_, ?_⟩
  · rw [hmain]
    have hac : ¬ a.id = c.id := by rw [haid]; exact hidc
    have : ({ a with sequence := ns } : ApproverRow) =
        (fun r => if r.id = c.id then { r with sequence := a.sequence }
                  else if r.id = id then { r with sequence := ns } else r) a := by
      simp [haid, hidc]
    rw [this]
    exact List.mem_map_of_mem _ hamem
  · rw [hmain]
    have hcmem2 : c ∈ tbl := (List.mem_filter.mp hcmem).1
    have : ({ c with sequence := a.sequence } : ApproverRow) =
        (fun r => if r.id = c.id then { r with sequence := a.sequence }
                  else if r.id = id then { r with sequence := ns } else r) c := by
      simp
    rw [this]
    exact List.mem_map_of_mem _ hcmem2

/-- S6 fixture: Alice at sequence 1, Bob at 2, Carol at 3, all active. -/
def tblC9 : List ApproverRow :=
  [⟨1, 1, 1001, "Manager", 1, true⟩,
   ⟨2, 1, 1002, "Finance", 2, true⟩,
   ⟨3, 1, 1003, "CEO", 3, true⟩]

/-- Witness for C9 on scenario S6: moving Carol to sequence 2 swaps her
with Bob, giving Alice at 1, Carol at 2, Bob at 3. -/
theorem sequence_swap_on_collision_witness :
    updateApproverSequence tblC9 1 3 (some 2) =
      (.updated (some 2),
       [⟨1, 1, 1001, "Manager", 1, true⟩,
        ⟨2, 1, 1002, "Finance", 3, true⟩,
        ⟨3, 1, 1003, "CEO", 2, true⟩]) := by
  have h := (sequence_swap_on_collision tblC9 1 3 2
    ⟨3, 1, 1003, "CEO", 3, true⟩ ⟨2, 1, 1002, "Finance", 2, true⟩
    (by decide) (by decide) (by decide) (by decide)).1
  rw [h]
  decide

end ExpenseMgmt
